import Mathlib

/-!
Verification of the CLIP read-only FUSE adapter and CLI glue.

This file gives a shallow embedding of the filesystem adapter in
`pkg/clipfs/fsnode.go` and of the S3 store entry point in `pkg/clip/clip.go`,
together with theorems settling the specification claims about them.

Conventions of the embedding:
* machine integers become `Nat` (FUSE offsets and lengths are non-negative);
* byte buffers become `List UInt8`; the value returned to the kernel by a
  read is the slice `dest[:nRead]`, modelled as the list of those bytes;
* fallible calls return `Except`;
* the storage backend (`ClipStorage.ReadFile`, `CachedLocally`) and the
  block content cache (`GetContent`) live outside the sources under
  verification, so the adapter is parameterized over them, and concrete
  models of them are derived from the specification where a claim needs one;
* the adapter's only mutable state in the sources, the lookup cache, is
  passed explicitly and returned.
-/

set_option autoImplicit false

/-- Node kinds of `common.ClipNode` (`File`, `Directory`, `SymLink`). -/
inductive NodeType where
  | FileNode
  | DirNode
  | SymLinkNode
  deriving DecidableEq, Repr

/-- POSIX-style attributes carried by a `ClipNode` (`fuse.Attr` fields the
adapter copies in `Getattr`/`Lookup`). -/
structure FuseAttr where
  ino : Nat
  size : Nat
  blocks : Nat
  atime : Nat
  mtime : Nat
  ctime : Nat
  mode : Nat
  nlink : Nat
  uid : Nat
  gid : Nat
  deriving DecidableEq, Repr

/-- The metadata record for one archive entry (`common.ClipNode`): path,
kind, attributes, content-region byte range, symlink target and content
digest. -/
structure ClipNode where
  path : String
  nodeType : NodeType
  attr : FuseAttr
  dataOffset : Nat
  dataLen : Nat
  target : String
  contentHash : String
  deriving DecidableEq, Repr

/-- The POSIX errnos the adapter can return (`fs.OK`, `syscall.EIO`,
`syscall.EROFS`, `syscall.ENOENT`, `syscall.EINVAL`). -/
inductive Errno where
  | ok
  | eio
  | erofs
  | enoent
  | einval
  deriving DecidableEq, Repr

/-- Which collaborators a read touched: instrumentation of the control flow
of `FSNode.Read` (whether the content cache was consulted and whether the
backend `ReadFile` was called). -/
structure ReadTrace where
  consultedCache : Bool
  calledReadFile : Bool
  deriving DecidableEq, Repr

/-- The guard of the content-cache branch of `FSNode.Read`
(`fsnode.go:155`): the cache is configured, the node has a content digest,
and the backend does not already hold all content locally. -/
def cacheBranch (cca cl : Bool) (node : ClipNode) : Bool :=
  cca && (node.contentHash != "") && !cl

/-- `FSNode.Read` (`fsnode.go:133-183`) with its control flow instrumented
by a `ReadTrace`.  `rf` is the backend `ReadFile` returning the bytes it
wrote into `dest` (length = `nRead`); `cca` is `contentCacheAvailable`;
`cl` is `s.CachedLocally()`; `gc` is `contentCache.GetContent`, returning
at most the requested number of bytes on a hit.  The result is the byte
slice handed to the kernel, or the errno. -/
def FSNode.ReadT (rf : ClipNode → Nat → Nat → Except Unit (List UInt8))
    (cca cl : Bool) (gc : String → Nat → Nat → Except Unit (List UInt8))
    (node : ClipNode) (destLen off : Nat) :
    Except Errno (List UInt8) × ReadTrace :=
  if node.dataLen ≤ off then
    (Except.ok (List.replicate destLen 0), ⟨false, false⟩)
  else if node.dataLen = 0 then
    (Except.ok [], ⟨false, false⟩)
  else if cacheBranch cca cl node then
    match gc node.contentHash off destLen with
    | Except.ok content => (Except.ok content, ⟨true, false⟩)
    | Except.error _ =>
      match rf node destLen off with
      | Except.ok data => (Except.ok data, ⟨true, true⟩)
      | Except.error _ => (Except.error Errno.eio, ⟨true, true⟩)
  else
    match rf node destLen off with
    | Except.ok data => (Except.ok data, ⟨false, true⟩)
    | Except.error _ => (Except.error Errno.eio, ⟨false, true⟩)

/-- The kernel-visible outcome of `FSNode.Read`. -/
def FSNode.Read (rf : ClipNode → Nat → Nat → Except Unit (List UInt8))
    (cca cl : Bool) (gc : String → Nat → Nat → Except Unit (List UInt8))
    (node : ClipNode) (destLen off : Nat) : Except Errno (List UInt8) :=
  (FSNode.ReadT rf cca cl gc node destLen off).1

/-- Modelled from the spec: the local backend `ReadFile` (§4.3, §4.3.1),
which is not part of the sources under verification.  `content` is the
archive's content region.  Reads beyond `dataLen` return zero bytes with
no error; otherwise the length is clamped to `dataLen - offset` and a
positional read at `dataOffset + offset` within the content region is
issued. -/
def readFileLocal (content : List UInt8) (node : ClipNode)
    (destLen off : Nat) : Except Unit (List UInt8) :=
  if node.dataLen ≤ off then Except.ok []
  else
    Except.ok ((content.drop (node.dataOffset + off)).take
      (min destLen (node.dataLen - off)))

/-- Modelled from the spec: the block content cache `GetContent` (§4.4),
which is not part of the sources under verification.  `store` maps a
content digest to the full cached bytes; a hit returns the requested slice
of them, a missing digest is a miss. -/
def getContentModel (store : String → Option (List UInt8))
    (hash : String) (off len : Nat) : Except Unit (List UInt8) :=
  match store hash with
  | none => Except.error ()
  | some bytes => Except.ok ((bytes.drop off).take len)

/-- `FSNode.Mmap` (`fsnode.go:37-60`).  Its Go signature returns only
`(handled bool, err error)`: when the requested range exceeds `dataLen` it
reads the file content into a locally allocated padded buffer and returns
`(true, nil)` — the buffer itself never leaves the function. -/
def FSNode.Mmap (rf : ClipNode → Nat → Nat → Except Unit (List UInt8))
    (node : ClipNode) (off sz : Nat) : Bool × Option Unit :=
  if node.dataLen < off + sz then
    match rf node node.dataLen 0 with
    | Except.error e => (false, some e)
    | Except.ok _ => (true, none)
  else (false, none)

/-- The padded buffer `FSNode.Mmap` allocates internally on the
over-long-range path (`fsnode.go:43-53`): `off+sz` zero bytes, the file
content read into the first `dataLen` of them, and index `dataLen` set to
zero. -/
def mmapPaddedBuf (content : List UInt8) (node : ClipNode)
    (off sz : Nat) : List UInt8 :=
  let data := match readFileLocal content node node.dataLen 0 with
    | Except.ok d => d
    | Except.error _ => []
  (data ++ List.replicate (off + sz - data.length) 0).set node.dataLen 0

/-- `syscall.MAP_SHARED` on Linux. -/
def MAP_SHARED : Nat := 1

/-- `syscall.MAP_PRIVATE` on Linux. -/
def MAP_PRIVATE : Nat := 2

/-- `fuse.FOPEN_DIRECT_IO` (bit 0 of the FUSE open-out flags). -/
def fopenDirectIo : Nat := 1

/-- The condition under which `FSNode.Open` treats its flags as indicating
memory mapping (`fsnode.go:125`). -/
def flagsIndicateMmap (flags : Nat) : Bool :=
  (flags &&& MAP_PRIVATE != 0) || (flags &&& MAP_SHARED != 0)

/-- `FSNode.Open` (`fsnode.go:123-131`): always succeeds with a `nil` file
handle; sets the direct-I/O FUSE flag exactly on the mmap condition. -/
def FSNode.Open (node : ClipNode) (flags : Nat) :
    Option Unit × Nat × Errno :=
  let fuseFlags := if flagsIndicateMmap flags then fopenDirectIo else 0
  (none, fuseFlags, Errno.ok)

/-- `FSNode.Readlink` (`fsnode.go:185-198`): `EINVAL` for non-symlinks,
otherwise the stored target string, uninterpreted. -/
def FSNode.Readlink (node : ClipNode) : Except Errno String :=
  if node.nodeType ≠ NodeType.SymLinkNode then Except.error Errno.einval
  else Except.ok node.target

/-- One entry of the lookup cache (`lookupCacheEntry`): the child inode,
modelled by its `ClipNode`, and the attributes returned from it. -/
structure LookupEntry where
  inode : ClipNode
  attr : FuseAttr
  deriving DecidableEq, Repr

/-- Map lookup in the cache, modelled as an association list (latest
insertion first, matching a Go map where each key is written once). -/
def lookupFind : List (String × LookupEntry) → String → Option LookupEntry
  | [], _ => none
  | (k, v) :: rest, key => if k = key then some v else lookupFind rest key

/-- Continuation of Go `path.Clean`'s `..`-backtracking loop: pop the last
output character, then keep popping while the output is longer than
`dotdot` and the character just popped is not a separator.  `out` is the
output buffer reversed (most recent character first). -/
def cleanBT (dotdot : Nat) : List Char → List Char
  | [] => []
  | c :: rest =>
    if rest.length > dotdot ∧ c ≠ '/' then cleanBT dotdot rest else rest

/-- Inner loop of Go `path.Clean`'s default case: copy characters of the
current path element onto the (reversed) output until a separator or the
end of the input. -/
def copyElem : List Char → List Char → List Char × List Char
  | out, [] => (out, [])
  | out, c :: rest =>
    if c = '/' then (out, c :: rest) else copyElem (c :: out) rest

/-- Main loop of Go `path.Clean`, fuelled (one unit of fuel per outer
iteration; each iteration consumes at least one input character, so fuel
equal to the input length is always enough).  `outRev` is the output
buffer reversed; `dotdot` is the index up to which `..` may not
backtrack. -/
def cleanLoop (rooted : Bool) :
    Nat → List Char → Nat → List Char → List Char
  | _, outRev, _, [] => outRev
  | 0, outRev, _, _ => outRev
  | fuel + 1, outRev, dotdot, c :: rest =>
    if c = '/' then
      cleanLoop rooted fuel outRev dotdot rest
    else if c = '.' ∧ (rest = [] ∨ rest.head? = some '/') then
      cleanLoop rooted fuel outRev dotdot rest
    else if c = '.' ∧ rest.head? = some '.' ∧
        (rest.tail = [] ∨ rest.tail.head? = some '/') then
      if outRev.length > dotdot then
        cleanLoop rooted fuel (cleanBT dotdot outRev) dotdot rest.tail
      else if rooted = false then
        let out2 := '.' :: '.' ::
          (if outRev.length > 0 then '/' :: outRev else outRev)
        cleanLoop rooted fuel out2 out2.length rest.tail
      else
        cleanLoop rooted fuel outRev dotdot rest.tail
    else
      let out2 := if (rooted = true ∧ outRev.length ≠ 1) ∨
          (rooted = false ∧ outRev.length ≠ 0) then '/' :: outRev else outRev
      let p := copyElem out2 (c :: rest)
      cleanLoop rooted fuel p.1 dotdot p.2

/-- Go `path.Clean` (the standard library routine `path.Join` applies):
lexical simplification of a slash-separated path. -/
def goClean (p : String) : String :=
  if p = "" then "."
  else
    let cs := p.data
    let rooted : Bool := cs.head? == some '/'
    let outRev0 := if rooted then ['/'] else []
    let dotdot0 := if rooted then 1 else 0
    let rest0 := if rooted then cs.tail else cs
    let outRev := cleanLoop rooted (cs.length + 1) outRev0 dotdot0 rest0
    if outRev.length = 0 then "." else String.mk outRev.reverse

/-- Go `path.Join` restricted to two elements, as called at
`fsnode.go:85`: empty elements are skipped and the result is cleaned. -/
def pathJoin (a b : String) : String :=
  if a = "" ∧ b = "" then ""
  else if a = "" then goClean b
  else if b = "" then goClean a
  else goClean (a ++ "/" ++ b)

/-- `FSNode.Lookup` (`fsnode.go:81-116`).  `meta` is
`s.Metadata().Get`; `cache` is the lookup cache, passed in and returned
(the sources guard it with a mutex; requests are serialized here).  The
child path is `path.Join(parent.path, name)`; the cache is consulted
first; on a miss the metadata index decides between `ENOENT` and a fresh
inode which is then cached. -/
def FSNode.Lookup (meta : String → Option ClipNode)
    (cache : List (String × LookupEntry)) (parentPath name : String) :
    Except Errno LookupEntry × List (String × LookupEntry) :=
  let childPath := pathJoin parentPath name
  match lookupFind cache childPath with
  | some entry => (Except.ok entry, cache)
  | none =>
    match meta childPath with
    | none => (Except.error Errno.enoent, cache)
    | some child =>
      (Except.ok ⟨child, child.attr⟩,
        (childPath, (⟨child, child.attr⟩ : LookupEntry)) :: cache)

/-- `FSNode.Create` (`fsnode.go:207-210`): rejects with `EROFS`, creating
nothing; the adapter state (lookup cache) is passed through untouched. -/
def FSNode.Create (cache : List (String × LookupEntry)) (node : ClipNode)
    (name : String) (flags mode : Nat) :
    (Option ClipNode × Option Unit × Nat × Errno) ×
      List (String × LookupEntry) :=
  ((none, none, 0, Errno.erofs), cache)

/-- `FSNode.Mkdir` (`fsnode.go:212-215`): rejects with `EROFS`. -/
def FSNode.Mkdir (cache : List (String × LookupEntry)) (node : ClipNode)
    (name : String) (mode : Nat) :
    (Option ClipNode × Errno) × List (String × LookupEntry) :=
  ((none, Errno.erofs), cache)

/-- `FSNode.Rmdir` (`fsnode.go:217-220`): rejects with `EROFS`. -/
def FSNode.Rmdir (cache : List (String × LookupEntry)) (node : ClipNode)
    (name : String) : Errno × List (String × LookupEntry) :=
  (Errno.erofs, cache)

/-- `FSNode.Unlink` (`fsnode.go:222-225`): rejects with `EROFS`. -/
def FSNode.Unlink (cache : List (String × LookupEntry)) (node : ClipNode)
    (name : String) : Errno × List (String × LookupEntry) :=
  (Errno.erofs, cache)

/-- `FSNode.Rename` (`fsnode.go:227-230`): rejects with `EROFS`. -/
def FSNode.Rename (cache : List (String × LookupEntry)) (node : ClipNode)
    (oldName : String) (newParent : ClipNode) (newName : String)
    (flags : Nat) : Errno × List (String × LookupEntry) :=
  (Errno.erofs, cache)

/-- Go `filepath.Base` on Unix: strip trailing separators, then keep the
part after the last separator; `"."` for the empty path, `"/"` when the
path consists solely of separators. -/
def filepathBase (p : String) : String :=
  if p = "" then "."
  else
    let cs := p.data.reverse.dropWhile (fun c => c = '/')
    let name := cs.takeWhile (fun c => c ≠ '/')
    if name = [] then "/" else String.mk name.reverse

/-- The options of `clip.StoreS3` (`clip.go:43-49`). -/
structure StoreS3Options where
  archivePath : String
  outputFile : String
  bucket : String
  key : String
  cachePath : String
  deriving DecidableEq, Repr

/-- `common.S3StorageInfo`: the object identity and region handed to the
remote archiver; per the interface contract this is the identity of the
uploaded object. -/
structure S3StorageInfo where
  bucket : String
  key : String
  region : String
  deriving DecidableEq, Repr

/-- The storage-info computation of `clip.StoreS3` (`clip.go:205-216`):
region from the `AWS_REGION` environment variable (read through `env`),
key defaulted to the base name of the archive path when empty. -/
def StoreS3 (env : String → String) (opts : StoreS3Options) :
    S3StorageInfo :=
  let region := env "AWS_REGION"
  let key := if opts.key = "" then filepathBase opts.archivePath
    else opts.key
  ⟨opts.bucket, key, region⟩

/-- C1 counterexample: a read at offset 0 on a zero-length file (offset ≥
dataLen) returns the full 3-byte zero-filled buffer to the kernel, not
zero bytes. -/
theorem c1_read_past_eof_counterexample :
    FSNode.Read (fun _ _ _ => Except.ok []) false false
      (fun _ _ _ => Except.error ())
      ⟨"/f", NodeType.FileNode, ⟨1, 0, 0, 0, 0, 0, 33188, 1, 0, 0⟩,
        0, 0, "", ""⟩ 3 0 = Except.ok [0, 0, 0] ∧
    ([0, 0, 0] : List UInt8) ≠ [] :=
  ⟨rfl, by decide⟩

/-- C1 (amended): for every read on a File node with offset ≥ the node's
dataLen, the read zero-fills the destination buffer and returns success
with the entire zero-filled buffer (`len(dest)` bytes), not zero bytes
read. -/
theorem c1_read_past_eof_zero_fill
    (rf : ClipNode → Nat → Nat → Except Unit (List UInt8)) (cca cl : Bool)
    (gc : String → Nat → Nat → Except Unit (List UInt8)) (node : ClipNode)
    (destLen off : Nat) (h : node.dataLen ≤ off) :
    FSNode.Read rf cca cl gc node destLen off
      = Except.ok (List.replicate destLen 0) := by
  unfold FSNode.Read FSNode.ReadT
  rw [if_pos h]

/-- C1 witness: a concrete past-EOF read (dataLen 4, offset 9) returning
the 8 zero bytes of the destination buffer. -/
theorem c1_read_past_eof_zero_fill_witness :
    (4 : Nat) ≤ 9 ∧
    FSNode.Read (fun _ _ _ => Except.error ()) true false
      (fun _ _ _ => Except.error ())
      ⟨"/f", NodeType.FileNode, ⟨1, 4, 8, 0, 0, 0, 33188, 1, 0, 0⟩,
        0, 4, "", "h"⟩ 8 9 = Except.ok (List.replicate 8 0) :=
  ⟨by decide, c1_read_past_eof_zero_fill _ _ _ _ _ _ _ (by decide)⟩

/-- C2: every write-like FUSE operation (create, mkdir, rmdir, unlink,
rename) returns `EROFS` for every node and every argument, creates no
inode or handle, and leaves the adapter state (the lookup cache)
unchanged. -/
theorem c2_write_ops_erofs (cache : List (String × LookupEntry))
    (node newParent : ClipNode) (name oldName newName : String)
    (flags mode rflags : Nat) :
    FSNode.Create cache node name flags mode
      = ((none, none, 0, Errno.erofs), cache) ∧
    FSNode.Mkdir cache node name mode = ((none, Errno.erofs), cache) ∧
    FSNode.Rmdir cache node name = (Errno.erofs, cache) ∧
    FSNode.Unlink cache node name = (Errno.erofs, cache) ∧
    FSNode.Rename cache node oldName newParent newName rflags
      = (Errno.erofs, cache) :=
  ⟨rfl, rfl, rfl, rfl, rfl⟩

/-- C3: readlink returns exactly the stored target string when the node is
a SymLink, and returns `EINVAL` if and only if the node is not a
SymLink. -/
theorem c3_readlink_symlink_target (node : ClipNode) :
    (node.nodeType = NodeType.SymLinkNode →
      FSNode.Readlink node = Except.ok node.target) ∧
    (FSNode.Readlink node = Except.error Errno.einval ↔
      node.nodeType ≠ NodeType.SymLinkNode) := by
  unfold FSNode.Readlink
  by_cases h : node.nodeType = NodeType.SymLinkNode
  · simp [h]
  · simp [h]

/-- C3 witness: a symlink with a dangling relative target yields exactly
that target; a File node yields `EINVAL`. -/
theorem c3_readlink_symlink_target_witness :
    FSNode.Readlink ⟨"/link", NodeType.SymLinkNode,
        ⟨2, 12, 0, 0, 0, 0, 41471, 1, 0, 0⟩, 0, 0, "../elsewhere", ""⟩
      = Except.ok "../elsewhere" ∧
    FSNode.Readlink ⟨"/f", NodeType.FileNode,
        ⟨3, 5, 8, 0, 0, 0, 33188, 1, 0, 0⟩, 0, 5, "", "h"⟩
      = Except.error Errno.einval :=
  ⟨(c3_readlink_symlink_target _).1 rfl,
    (c3_readlink_symlink_target _).2.mpr (by decide)⟩

/-- C8: open succeeds for every node and every flags value with a nil file
handle, and returns the direct-I/O flag exactly when the flags indicate
memory mapping; otherwise no flag is set. -/
theorem c8_open_direct_io (node : ClipNode) (flags : Nat) :
    (FSNode.Open node flags).2.2 = Errno.ok ∧
    (FSNode.Open node flags).1 = none ∧
    ((FSNode.Open node flags).2.1 = fopenDirectIo ↔
      flagsIndicateMmap flags = true) ∧
    (flagsIndicateMmap flags = false → (FSNode.Open node flags).2.1 = 0) := by
  unfold FSNode.Open
  cases h : flagsIndicateMmap flags <;> simp [h, fopenDirectIo]

/-- C8 witness: `MAP_PRIVATE`-style flags set the direct-I/O flag; flags 0
set none. -/
theorem c8_open_direct_io_witness :
    (FSNode.Open ⟨"/f", NodeType.FileNode,
        ⟨3, 5, 8, 0, 0, 0, 33188, 1, 0, 0⟩, 0, 5, "", "h"⟩ 2).2.1
      = fopenDirectIo ∧
    (FSNode.Open ⟨"/f", NodeType.FileNode,
        ⟨3, 5, 8, 0, 0, 0, 33188, 1, 0, 0⟩, 0, 5, "", "h"⟩ 0).2.1 = 0 :=
  ⟨(c8_open_direct_io _ 2).2.2.1.mpr (by decide),
    (c8_open_direct_io _ 0).2.2.2 (by decide)⟩

/-- C10: when the Key option is empty, the object key placed in the
storage info (the object identity used for the upload) is the base name
of ArchivePath; a non-empty Key is used exactly as given; the region is
read from the `AWS_REGION` environment variable. -/
theorem c10_store_s3_key_region (env : String → String)
    (opts : StoreS3Options) :
    (opts.key = "" →
      (StoreS3 env opts).key = filepathBase opts.archivePath) ∧
    (opts.key ≠ "" → (StoreS3 env opts).key = opts.key) ∧
    (StoreS3 env opts).region = env "AWS_REGION" := by
  unfold StoreS3
  by_cases h : opts.key = "" <;> simp [h]

/-- C10 witness: an empty Key with archive path `/tmp/images/rootfs.clip`
uploads under key `rootfs.clip`. -/
theorem c10_store_s3_key_region_witness :
    (StoreS3 (fun v => if v = "AWS_REGION" then "us-east-1" else "")
        ⟨"/tmp/images/rootfs.clip", "out.rclip", "bkt", "", "/cache"⟩).key
      = filepathBase "/tmp/images/rootfs.clip" ∧
    filepathBase "/tmp/images/rootfs.clip" = "rootfs.clip" :=
  ⟨(c10_store_s3_key_region _ _).1 rfl, by decide⟩

/-- C4: for every read on a File node of size n with offset < n and
offset + length > n — through the cache-hit path, the cache-miss path or
the direct backend path — the read returns exactly n - offset bytes,
because the backend (and the cache slice) clamp the length to
dataLen - offset. -/
theorem c4_read_clamps_to_remaining
    (content : List UInt8) (store : String → Option (List UInt8))
    (cca cl : Bool) (node : ClipNode) (destLen off : Nat)
    (h1 : off < node.dataLen) (h2 : node.dataLen < off + destLen)
    (h3 : node.dataOffset + node.dataLen ≤ content.length)
    (h4 : ∀ b, store node.contentHash = some b →
      b.length = node.dataLen) :
    ∃ data, FSNode.Read (readFileLocal content) cca cl
        (getContentModel store) node destLen off = Except.ok data ∧
      data.length = node.dataLen - off := by
  have hA : ¬ node.dataLen ≤ off := by omega
  have hB : ¬ node.dataLen = 0 := by omega
  by_cases hcb : cacheBranch cca cl node = true
  · cases hs : store node.contentHash with
    | none =>
      refine ⟨(content.drop (node.dataOffset + off)).take
        (min destLen (node.dataLen - off)), ?_, ?_⟩
      · simp [FSNode.Read, FSNode.ReadT, getContentModel, readFileLocal,
          hA, hB, hcb, hs]
      · simp [List.length_take, List.length_drop]
        omega
    | some b =>
      have hb := h4 b hs
      refine ⟨(b.drop off).take destLen, ?_, ?_⟩
      · simp [FSNode.Read, FSNode.ReadT, getContentModel, hA, hB, hcb, hs]
      · simp [List.length_take, List.length_drop, hb]
        omega
  · refine ⟨(content.drop (node.dataOffset + off)).take
      (min destLen (node.dataLen - off)), ?_, ?_⟩
    · simp [FSNode.Read, FSNode.ReadT, readFileLocal, hA, hB, hcb]
    · simp [List.length_take, List.length_drop]
      omega

/-- C4 witness: a 5-byte file read at offset 3 with an 8-byte buffer and
no cached content returns exactly 2 bytes. -/
theorem c4_read_clamps_to_remaining_witness :
    (3 : Nat) < 5 ∧
    (∃ data, FSNode.Read (readFileLocal [1, 2, 3, 4, 5]) false false
        (getContentModel (fun _ => none))
        ⟨"/f", NodeType.FileNode, ⟨3, 5, 8, 0, 0, 0, 33188, 1, 0, 0⟩,
          0, 5, "", "h"⟩ 8 3 = Except.ok data ∧ data.length = 5 - 3) :=
  ⟨by decide, c4_read_clamps_to_remaining _ _ _ _ _ _ _ (by decide)
    (by decide) (by decide) (fun b hb => nomatch hb)⟩

/-- C6 evaluation at the failing input: mmap of a 5-byte file with a
4096-byte request returns `(true, nil)` — a result type that carries no
buffer to the kernel — while the padded buffer built and then discarded
internally is the 5 content bytes followed by zeros. -/
theorem c6_mmap_padded_buffer_discarded :
    FSNode.Mmap (readFileLocal [104, 101, 108, 108, 111])
      ⟨"/f", NodeType.FileNode, ⟨3, 5, 8, 0, 0, 0, 33188, 1, 0, 0⟩,
        0, 5, "", "h"⟩ 0 4096 = (true, none) ∧
    mmapPaddedBuf [104, 101, 108, 108, 111]
      ⟨"/f", NodeType.FileNode, ⟨3, 5, 8, 0, 0, 0, 33188, 1, 0, 0⟩,
        0, 5, "", "h"⟩ 0 4096
      = [104, 101, 108, 108, 111] ++ List.replicate 4091 0 :=
  ⟨rfl, rfl⟩

/-- C7: a FUSE read returns an error errno exactly when the backend's
ReadFile was reached and returned an error, and that errno is always
`EIO`; on success no error errno is returned (and the embedding is a
total function, so no panic is possible). -/
theorem c7_read_backend_error_eio
    (rf : ClipNode → Nat → Nat → Except Unit (List UInt8)) (cca cl : Bool)
    (gc : String → Nat → Nat → Except Unit (List UInt8)) (node : ClipNode)
    (destLen off : Nat) (e : Errno) :
    FSNode.Read rf cca cl gc node destLen off = Except.error e ↔
      (e = Errno.eio ∧ off < node.dataLen ∧
        rf node destLen off = Except.error () ∧
        (cacheBranch cca cl node = true →
          gc node.contentHash off destLen = Except.error ())) := by
  unfold FSNode.Read FSNode.ReadT
  by_cases hA : node.dataLen ≤ off
  · have hlt : ¬ off < node.dataLen := by omega
    simp [hA, hlt]
  · have hB : ¬ node.dataLen = 0 := by omega
    have hlt : off < node.dataLen := by omega
    by_cases hcb : cacheBranch cca cl node = true
    · cases hg : gc node.contentHash off destLen with
      | ok content => simp [hA, hB, hcb, hg, hlt]
      | error u =>
        cases hrf : rf node destLen off with
        | ok data => simp [hA, hB, hcb, hg, hrf, hlt]
        | error v => simp [hA, hB, hcb, hg, hrf, hlt, eq_comm]
    · cases hrf : rf node destLen off with
      | ok data => simp [hA, hB, hcb, hrf, hlt]
      | error v => simp [hA, hB, hcb, hrf, hlt, eq_comm]

/-- C7 witness: with no content cache configured and a backend whose
ReadFile fails, a concrete in-range read returns `EIO`. -/
theorem c7_read_backend_error_eio_witness :
    FSNode.Read (fun _ _ _ => Except.error ()) false false
      (fun _ _ _ => Except.ok [])
      ⟨"/f", NodeType.FileNode, ⟨3, 5, 8, 0, 0, 0, 33188, 1, 0, 0⟩,
        0, 5, "", "h"⟩ 4 0 = Except.error Errno.eio :=
  (c7_read_backend_error_eio _ _ _ _ _ _ _ _).mpr
    ⟨rfl, by decide, rfl, fun h => absurd h (by decide)⟩

/-- C9 counterexample: with the content cache unavailable (so the three
conditions do not all hold) and offset ≥ dataLen, the read neither
consults the content cache nor goes to the backend's ReadFile — refuting
that every such read goes directly to ReadFile. -/
theorem c9_cache_gate_counterexample :
    (FSNode.ReadT (fun _ _ _ => Except.ok []) false false
        (fun _ _ _ => Except.error ())
        ⟨"/f", NodeType.FileNode, ⟨3, 5, 8, 0, 0, 0, 33188, 1, 0, 0⟩,
          0, 5, "", "h"⟩ 4 10).2 = ⟨false, false⟩ ∧
    cacheBranch false false
      ⟨"/f", NodeType.FileNode, ⟨3, 5, 8, 0, 0, 0, 33188, 1, 0, 0⟩,
        0, 5, "", "h"⟩ = false :=
  ⟨rfl, rfl⟩

/-- C9 (amended): a read consults the content cache exactly when the three
conditions hold and the offset is within the file; it calls the backend's
ReadFile exactly when the offset is within the file and either the cache
branch is not taken or the cache misses. -/
theorem c9_cache_gate_characterization
    (rf : ClipNode → Nat → Nat → Except Unit (List UInt8)) (cca cl : Bool)
    (gc : String → Nat → Nat → Except Unit (List UInt8)) (node : ClipNode)
    (destLen off : Nat) :
    ((FSNode.ReadT rf cca cl gc node destLen off).2.consultedCache = true ↔
      (off < node.dataLen ∧ cacheBranch cca cl node = true)) ∧
    ((FSNode.ReadT rf cca cl gc node destLen off).2.calledReadFile = true ↔
      (off < node.dataLen ∧ (cacheBranch cca cl node = true →
        gc node.contentHash off destLen = Except.error ()))) := by
  unfold FSNode.ReadT
  by_cases hA : node.dataLen ≤ off
  · have hlt : ¬ off < node.dataLen := by omega
    simp [hA, hlt]
  · have hB : ¬ node.dataLen = 0 := by omega
    have hlt : off < node.dataLen := by omega
    by_cases hcb : cacheBranch cca cl node = true
    · cases hg : gc node.contentHash off destLen with
      | ok content => simp [hA, hB, hcb, hg, hlt]
      | error u =>
        cases hrf : rf node destLen off with
        | ok data => simp [hA, hB, hcb, hg, hrf, hlt]
        | error v => simp [hA, hB, hcb, hg, hrf, hlt]
    · cases hrf : rf node destLen off with
      | ok data => simp [hA, hB, hcb, hrf, hlt]
      | error v => simp [hA, hB, hcb, hrf, hlt]

/-- C9 witness: with the cache available, a non-empty hash, a remote
backend and an in-range offset, the cache is consulted. -/
theorem c9_cache_gate_characterization_witness :
    (FSNode.ReadT (fun _ _ _ => Except.ok []) true false
        (fun _ _ _ => Except.ok [1])
        ⟨"/f", NodeType.FileNode, ⟨3, 5, 8, 0, 0, 0, 33188, 1, 0, 0⟩,
          0, 5, "", "h"⟩ 4 0).2.consultedCache = true :=
  (c9_cache_gate_characterization _ _ _ _ _ _ _).1.mpr
    ⟨by decide, by decide⟩

/-- C5: lookup joins the parent path with the name, consults the lookup
cache first (a hit is returned as cached, regardless of the index), on a
miss consults the metadata index, returns `ENOENT` when the path is
absent there, and on success returns the child and caches it under the
joined path. -/
theorem c5_lookup_cache_index_enoent (meta : String → Option ClipNode)
    (cache : List (String × LookupEntry)) (parentPath name : String) :
    (∀ e, lookupFind cache (pathJoin parentPath name) = some e →
      FSNode.Lookup meta cache parentPath name = (Except.ok e, cache)) ∧
    (lookupFind cache (pathJoin parentPath name) = none →
      meta (pathJoin parentPath name) = none →
      FSNode.Lookup meta cache parentPath name
        = (Except.error Errno.enoent, cache)) ∧
    (∀ child, lookupFind cache (pathJoin parentPath name) = none →
      meta (pathJoin parentPath name) = some child →
      FSNode.Lookup meta cache parentPath name
          = (Except.ok ⟨child, child.attr⟩,
            (pathJoin parentPath name,
              (⟨child, child.attr⟩ : LookupEntry)) :: cache) ∧
      lookupFind (FSNode.Lookup meta cache parentPath name).2
          (pathJoin parentPath name) = some ⟨child, child.attr⟩) := by
  refine ⟨?_, ?_, ?_⟩
  · intro e he
    unfold FSNode.Lookup
    simp [he]
  · intro h1 h2
    unfold FSNode.Lookup
    simp [h1, h2]
  · intro child h1 h2
    unfold FSNode.Lookup
    simp [h1, h2, lookupFind]

/-- The directory node used by the C5 witness. -/
def witnessDirNode : ClipNode :=
  ⟨"/a", NodeType.DirNode, ⟨7, 0, 0, 0, 0, 0, 16877, 2, 0, 0⟩,
    0, 0, "", ""⟩

/-- The metadata index used by the C5 witness: a single entry at `/a`. -/
def witnessMeta : String → Option ClipNode :=
  fun p => if p = "/a" then some witnessDirNode else none

/-- C5 witness: looking up `a` under `/` with an empty cache finds `/a`
in the index, returns it, and caches it under the joined path. -/
theorem c5_lookup_cache_index_enoent_witness :
    FSNode.Lookup witnessMeta [] "/" "a"
      = (Except.ok ⟨witnessDirNode, witnessDirNode.attr⟩,
        [(pathJoin "/" "a",
          (⟨witnessDirNode, witnessDirNode.attr⟩ : LookupEntry))]) ∧
    lookupFind (FSNode.Lookup witnessMeta [] "/" "a").2
      (pathJoin "/" "a")
      = some ⟨witnessDirNode, witnessDirNode.attr⟩ :=
  (c5_lookup_cache_index_enoent witnessMeta [] "/" "a").2.2
    witnessDirNode rfl (by decide)
